import Mathlib

/-!
Verification of the nextgen4b filtering/demultiplexing pipeline
(`nextgen4b/process/filter.py`).

Sequence records are shallowly embedded: a record carries an identifier,
a nucleotide sequence, a free-text description (the FASTQ header, which
holds the instrument coordinates), the per-base Phred quality scores
(`letter_annotations['phred_quality']`), and the optional
`annotations['alnscore']` set by the alignment-culling stage.

Python string primitives used by the code (`str.split`, `str.find`,
`str.startswith`, `str.count`, Biopython's `reverse_complement`) are
embedded as executable Lean functions with the same semantics, including
`find`'s -1 result on a missed search.  The external regex engine and the
external EMBOSS needle aligner are abstracted as function parameters, as
the spec directs (the aligner is "an opaque scoring oracle").
-/

namespace Nextgen4b

structure SeqRecord where
  id : String
  seq : String
  description : String
  quality : List Nat
  alnscore : Option Int
  deriving DecidableEq

/-- Python `sub in s` / `s.startswith(pre)` on strings: exact prefix match. -/
def py_startswith (s pre : String) : Bool :=
  List.isPrefixOf pre.data s.data

/-- Splitting a character list on a separator character, Python
`str.split(sep)` semantics: always at least one (possibly empty) field. -/
def splitOnAux (c : Char) : List Char → List Char → List (List Char)
  | [], acc => [acc.reverse]
  | x :: xs, acc =>
    if x = c then acc.reverse :: splitOnAux c xs [] else splitOnAux c xs (x :: acc)

/-- Python `s.split(c)` for a one-character separator `c`. -/
def pySplit (s : String) (c : Char) : List String :=
  (splitOnAux c s.data []).map String.mk

/-- Python `':'.join(parts)`. -/
def joinColon : List String → String
  | [] => ""
  | [x] => x
  | x :: y :: rest => x ++ ":" ++ joinColon (y :: rest)

/-- Index of the first occurrence of `sub` in a character list, if any
(Python `str.find` before its -1 encoding). -/
def findSub (sub : List Char) : List Char → Option Nat
  | [] => if List.isPrefixOf sub [] then some 0 else none
  | c :: t =>
    if List.isPrefixOf sub (c :: t) then some 0
    else (findSub sub t).map (fun n => n + 1)

/-- Python `hay.find(sub)`: first index of occurrence, or -1 when absent. -/
def str_find (hay sub : String) : Int :=
  match findSub sub.data hay.data with
  | some n => (n : Int)
  | none => -1

/-- Watson-Crick complement of one base; other characters are unchanged. -/
def complement_base (c : Char) : Char :=
  if c = 'A' then 'T'
  else if c = 'T' then 'A'
  else if c = 'C' then 'G'
  else if c = 'G' then 'C'
  else c

/-- Biopython `record.reverse_complement()`, on the sequence string. -/
def reverse_complement (s : String) : String :=
  String.mk (s.data.reverse.map complement_base)

/-- Embedding of `get_coords` (filter.py:176): colon-join of fields 4 onward of the
first space-separated token of the record description. -/
def get_coords (s : SeqRecord) : String :=
  joinColon ((pySplit ((pySplit s.description ' ').headD "") ':').drop 3)

/-- Embedding of `filter_seqs` (filter.py:126): keep records whose sequence matches the
regex; the regex engine's `search` test is abstracted as `q_re`. -/
def filter_seqs (seqs : List SeqRecord) (q_re : String → Bool) : List SeqRecord :=
  seqs.filter (fun s => q_re s.seq)

/-- Embedding of `barcodeDemux` (filter.py:152): one bucket per experiment, keeping the
records whose sequence starts with that experiment's barcode. -/
def barcodeDemux (seqs : List SeqRecord) (bcs : List (String × String)) :
    List (String × List SeqRecord) :=
  bcs.map (fun p => (p.1, seqs.filter (fun s => py_startswith s.seq p.2)))

/-- The per-record loop body of `filter_pe_mismatch` (filter.py:217-223),
processed in order.  `copied_func s = none` models the extraction function
raising; a coordinate hit with an empty `pe_seqs` models the `pe_seqs[0]`
IndexError.  The kept-record test reproduces the source's Python truthiness:
`if str(pe_seqs[0].reverse_complement().seq).find(str(copied.seq)):` is
taken exactly when `find` returns a nonzero value (including -1). -/
def pe_loop (pe_seqs : List SeqRecord) (pe_coord_list : List String)
    (copied_func : SeqRecord → Option String) : List SeqRecord → Option (List SeqRecord)
  | [] => some []
  | s :: rest =>
    if pe_coord_list.contains (get_coords s) then
      match copied_func s with
      | none => none
      | some copied =>
        match pe_seqs with
        | [] => none
        | r0 :: _ =>
          if str_find (reverse_complement r0.seq) copied ≠ 0 then
            (pe_loop pe_seqs pe_coord_list copied_func rest).map (fun t => s :: t)
          else
            pe_loop pe_seqs pe_coord_list copied_func rest
    else
      pe_loop pe_seqs pe_coord_list copied_func rest

/-- Embedding of `filter_pe_mismatch` (filter.py:191): coordinate list from the reverse
reads, then the per-record loop. -/
def filter_pe_mismatch (f_seqs pe_seqs : List SeqRecord)
    (copied_func : SeqRecord → Option String) : Option (List SeqRecord) :=
  pe_loop pe_seqs (pe_seqs.map get_coords) copied_func f_seqs

/-- Embedding of `quality_filter` (filter.py:241): drop a record when any per-base Phred
score is strictly below the cutoff (source default 20). -/
def quality_filter (seqs : List SeqRecord) (q_cutoff : Nat) : List SeqRecord :=
  seqs.filter (fun s => ! s.quality.any (fun q => q < q_cutoff))

/-- Embedding of `len_filter` (filter.py:255): keep records whose sequence length is in
the inclusive range offset by the barcode length (source defaults 40/200). -/
def len_filter (seqs : List SeqRecord) (l_cutoff u_cutoff l_barcode : Nat) :
    List SeqRecord :=
  seqs.filter (fun s =>
    decide (s.seq.data.length ≥ l_cutoff + l_barcode) &&
    decide (s.seq.data.length ≤ u_cutoff + l_barcode))

/-- One pairwise alignment from the EMBOSS needle report: `alignment[0]`
(template row), `alignment[1]` (query row), `annotations['score']`. -/
structure Alignment where
  row0 : String
  row1 : SeqRecord
  score : Int
  deriving DecidableEq

/-- Embedding of `cull_alignments` (filter.py:310): keep the query row of each alignment
whose score is strictly between the cutoffs and whose template row has no
`-` gap characters, stamping the score into `annotations['alnscore']`. -/
def cull_alignments : List Alignment → Int → Int → List SeqRecord
  | [], _, _ => []
  | a :: rest, lo_cutoff, hi_cutoff =>
    if lo_cutoff < a.score ∧ a.score < hi_cutoff then
      if ¬ a.row0.data.count '-' > 0 then
        { a.row1 with alnscore := some a.score } :: cull_alignments rest lo_cutoff hi_cutoff
      else
        cull_alignments rest lo_cutoff hi_cutoff
    else
      cull_alignments rest lo_cutoff hi_cutoff

/-- Modelled from the spec: `alignment_filter` (filter.py:272) shells out to
the external EMBOSS needle binary, which is not part of this repository; per
the spec it is "an opaque scoring oracle" producing one pairwise alignment
(template row, query row, numeric score) per input record, so it is
abstracted here as the `aligner` collaborator.  The stage aligns the batch
and culls by `cull_alignments`. -/
def alignment_filter (seqs : List SeqRecord)
    (aligner : List SeqRecord → List Alignment) (lo_cutoff hi_cutoff : Int) :
    List SeqRecord :=
  cull_alignments (aligner seqs) lo_cutoff hi_cutoff

/-- The per-experiment body of `filter_sample` (filter.py:76-118): paired-end
match, adapter trim, then quality / alignment / length filtering (each
skipped once the working list is empty), threading the CSV audit fields in
source order.  `trim` abstracts `trim_lig_adapter` (regex-based, may raise),
`aligner` abstracts the external needle call; the numeric cutoffs are the
ones `filter_sample` passes (quality 20, alignment 300/1000, length 40/200
offset by the barcode length).  Returns the final records and the CSV row. -/
def filter_sample_expt (expt : String) (bucket pe_seqs : List SeqRecord)
    (copied_func : SeqRecord → Option String) (trim : SeqRecord → Option SeqRecord)
    (aligner : List SeqRecord → List Alignment) (bc_len : Nat) :
    Option (List SeqRecord × List String) :=
  match filter_pe_mismatch bucket pe_seqs copied_func with
  | none => none
  | some seqs1 =>
    match seqs1.mapM trim with
    | none => none
    | some seqs2 =>
      let seqs3 := if seqs2.length > 0 then quality_filter seqs2 20 else seqs2
      let seqs4 := if seqs3.length > 0 then alignment_filter seqs3 aligner 300 1000 else seqs3
      let seqs5 := if seqs4.length > 0 then len_filter seqs4 40 200 bc_len else seqs4
      some (seqs5,
        [expt, toString bucket.length, toString seqs1.length, toString seqs3.length,
         toString seqs4.length, toString seqs5.length])

/-- Quality stage of `filter_sample` (filter.py:89-95): the quality filter
at cutoff 20, skipped when the working list is already empty.  This is
definitionally the binding of `seqs` after the quality step in
`filter_sample_expt`. -/
def post_quality (seqs : List SeqRecord) : List SeqRecord :=
  if seqs.length > 0 then quality_filter seqs 20 else seqs

/-- Alignment stage of `filter_sample` (filter.py:98-106): the alignment
filter at cutoffs 300/1000, skipped when the working list is empty.
Definitionally the binding of `seqs` after the alignment step in
`filter_sample_expt`. -/
def post_alignment (aligner : List SeqRecord → List Alignment)
    (seqs : List SeqRecord) : List SeqRecord :=
  if seqs.length > 0 then alignment_filter seqs aligner 300 1000 else seqs

/-- Length stage of `filter_sample` (filter.py:109-115): the length filter
at 40/200 offset by the barcode length, skipped when the working list is
empty.  Definitionally the binding of `seqs` after the length step in
`filter_sample_expt`. -/
def post_length (bc_len : Nat) (seqs : List SeqRecord) : List SeqRecord :=
  if seqs.length > 0 then len_filter seqs 40 200 bc_len else seqs

/-! Concrete records used to instantiate the spec's scenarios. -/

/-- Scenario record with sequence "AAATTTT" (spec §8 demux scenario). -/
def recAAA : SeqRecord := ⟨"r1", "AAATTTT", "d1", [30, 30, 30, 30, 30, 30, 30], none⟩

/-- Scenario record with sequence "GGGCCCC" (spec §8 demux scenario). -/
def recGGG : SeqRecord := ⟨"r2", "GGGCCCC", "d2", [30, 30, 30, 30, 30, 30, 30], none⟩

/-- Scenario record with sequence "CCCAAAA" (spec §8 demux scenario). -/
def recCCC : SeqRecord := ⟨"r3", "CCCAAAA", "d3", [30, 30, 30, 30, 30, 30, 30], none⟩

/-- Scenario record with Phred scores [25,30,18,22] (spec §8 quality scenario). -/
def lowQRec : SeqRecord := ⟨"q1", "ACGT", "d", [25, 30, 18, 22], none⟩

/-- Scenario record with Phred scores [25,30,20,22] (spec §8 quality scenario). -/
def okQRec : SeqRecord := ⟨"q2", "ACGT", "d", [25, 30, 20, 22], none⟩

/-- Scenario 45-base record (spec §8 length scenario). -/
def rec45 : SeqRecord := ⟨"l1", String.mk (List.replicate 45 'A'), "d", [], none⟩

/-- Scenario 42-base record (spec §8 length scenario). -/
def rec42 : SeqRecord := ⟨"l2", String.mk (List.replicate 42 'A'), "d", [], none⟩

/-- Forward read whose header carries instrument coordinates 10:20:30. -/
def pe_f0 : SeqRecord := ⟨"f0", "ACGT", "M1:R1:F1:10:20:30 1:N:0:8", [30, 30, 30, 30], none⟩

/-- Reverse read with the same coordinates 10:20:30; its sequence "GGTT"
has reverse-complement "AACC". -/
def pe_p0 : SeqRecord := ⟨"p0", "GGTT", "M1:R1:F1:10:20:30 2:N:0:8", [30, 30, 30, 30], none⟩

/-- Record fed to the alignment-filter idempotence counterexample. -/
def c8rec : SeqRecord := ⟨"c8", "ACG", "d", [30, 30, 30], none⟩

/-- Concrete instantiation of the abstract alignment oracle: the aligned
query row gains a trailing gap character, and a query that already carries
a gap character aligns with a low score (a gapped row no longer matches the
template cleanly).  Deterministic and batch-wise record-by-record, like the
needle call it stands in for. -/
def gap_aligner : List SeqRecord → List Alignment :=
  fun seqs => seqs.map (fun s =>
    { row0 := "ACGT",
      row1 := { s with seq := s.seq ++ "-" },
      score := if s.seq.data.contains '-' then 100 else 500 })

/-- Concrete alignment retained by the culling stage. -/
def aln0 : Alignment := ⟨"ACGT", recAAA, 500⟩

/-! Helper lemmas about the paired-end loop. -/

/-- With an empty coordinate list every iteration takes the skip branch. -/
theorem pe_loop_coords_nil (pe : List SeqRecord) (cf : SeqRecord → Option String) :
    ∀ f, pe_loop pe [] cf f = some [] := by
  intro f
  induction f with
  | nil => rfl
  | cons s rest ih => simpa [pe_loop] using ih

/-- A successful paired-end loop returns a sublist of its forward input. -/
theorem pe_loop_sublist (pe : List SeqRecord) (co : List String)
    (cf : SeqRecord → Option String) :
    ∀ f l, pe_loop pe co cf f = some l → l.Sublist f := by
  intro f
  induction f with
  | nil =>
    intro l h
    simp only [pe_loop, Option.some.injEq] at h
    subst h
    exact List.Sublist.refl []
  | cons s rest ih =>
    intro l h
    simp only [pe_loop] at h
    split at h
    · split at h
      · exact Option.noConfusion h
      · split at h
        · exact Option.noConfusion h
        · split at h
          · rcases Option.map_eq_some'.mp h with ⟨t, ht, rfl⟩
            exact (ih t ht).cons₂ s
          · exact (ih l h).cons s
    · exact (ih l h).cons s

/-- Re-running a successful paired-end loop on its own output changes
nothing: every kept record repeats the exact branch that kept it. -/
theorem pe_loop_idem (pe : List SeqRecord) (co : List String)
    (cf : SeqRecord → Option String) :
    ∀ f l, pe_loop pe co cf f = some l → pe_loop pe co cf l = some l := by
  intro f
  induction f with
  | nil =>
    intro l h
    simp only [pe_loop, Option.some.injEq] at h
    subst h
    rfl
  | cons s rest ih =>
    intro l h
    simp only [pe_loop] at h
    split at h
    · rename_i hc
      split at h
      · exact Option.noConfusion h
      · rename_i copied hcf
        split at h
        · exact Option.noConfusion h
        · rename_i r0 tl
          split at h
          · rename_i hf
            rcases Option.map_eq_some'.mp h with ⟨t, ht, rfl⟩
            have iht := ih t ht
            simp [pe_loop, hc, hcf, hf, iht]
            simpa using hc
          · exact ih l h
    · exact ih l h

/-- The culling stage never emits more records than it was given. -/
theorem cull_alignments_length_le (aln : List Alignment) (lo hi : Int) :
    (cull_alignments aln lo hi).length ≤ aln.length := by
  induction aln with
  | nil => simp [cull_alignments]
  | cons a rest ih =>
    simp only [cull_alignments]
    split
    · split
      · simpa using Nat.succ_le_succ ih
      · exact le_trans ih (Nat.le_succ _)
    · exact le_trans ih (Nat.le_succ _)

/-- Filtering a list twice with the same predicate equals filtering once. -/
theorem filter_twice {α : Type} (p : α → Bool) (l : List α) :
    (l.filter p).filter p = l.filter p := by
  induction l with
  | nil => rfl
  | cons a t ih =>
    by_cases h : p a
    · simp [List.filter_cons, h, ih]
    · simp [List.filter_cons, h, ih]

/-- A successful `Option`-valued `mapM'` preserves list length. -/
theorem mapM_option_length_aux {α β : Type} (f : α → Option β) :
    ∀ (l : List α) (l2 : List β), l.mapM' f = some l2 → l2.length = l.length := by
  intro l
  induction l with
  | nil =>
    intro l2 h
    simp only [List.mapM'_nil] at h
    cases h
    rfl
  | cons a t ih =>
    intro l2 h
    cases hfa : f a with
    | none => simp [List.mapM'_cons, hfa] at h
    | some b =>
      cases hmt : t.mapM' f with
      | none => simp [List.mapM'_cons, hfa, hmt] at h
      | some bs =>
        simp only [List.mapM'_cons, hfa, hmt] at h
        simp only [Option.bind_eq_bind, Option.some_bind, Option.pure_def,
          Option.some.injEq] at h
        subst h
        simp [ih bs hmt]

/-- A successful `Option`-valued `mapM` (the adapter-trim step) preserves
list length. -/
theorem mapM_option_length {α β : Type} (f : α → Option β) (l : List α) (l2 : List β)
    (h : l.mapM f = some l2) : l2.length = l.length := by
  rw [← List.mapM'_eq_mapM] at h
  exact mapM_option_length_aux f l l2 h

/-- The quality stage never grows the working list. -/
theorem post_quality_length_le (seqs : List SeqRecord) :
    (post_quality seqs).length ≤ seqs.length := by
  unfold post_quality
  split
  · exact List.length_filter_le _ _
  · exact le_refl _

/-- The alignment stage never grows the working list, provided the oracle
emits one alignment per input record (the spec's report shape). -/
theorem post_alignment_length_le (aligner : List SeqRecord → List Alignment)
    (haligner : ∀ l, (aligner l).length = l.length) (seqs : List SeqRecord) :
    (post_alignment aligner seqs).length ≤ seqs.length := by
  unfold post_alignment
  split
  · have hc := cull_alignments_length_le (aligner seqs) 300 1000
    rw [haligner seqs] at hc
    exact hc
  · exact le_refl _

/-- The length stage never grows the working list. -/
theorem post_length_length_le (bc_len : Nat) (seqs : List SeqRecord) :
    (post_length bc_len seqs).length ≤ seqs.length := by
  unfold post_length
  split
  · exact List.length_filter_le _ _
  · exact le_refl _

/-! Claim theorems. -/

/-- C10: with an empty reverse-record list, `filter_pe_mismatch` returns the
empty list without error, for every forward list and every extraction
function (including one that would raise on every record): the coordinate
membership test fails everywhere, so neither `pe_seqs[0]` nor the extraction
function is ever reached. -/
theorem filter_pe_mismatch_empty_reverse (f_seqs : List SeqRecord)
    (copied_func : SeqRecord → Option String) :
    filter_pe_mismatch f_seqs [] copied_func = some [] := by
  simpa [filter_pe_mismatch] using pe_loop_coords_nil [] copied_func f_seqs

/-- C1: the paired-end filter does not retain a forward record exactly when
its copied subsequence occurs in the reverse-complement of a reverse read.
Here `pe_f0` and `pe_p0` share coordinate key 10:20:30 and the copied
subsequence "AA" occurs at index 0 of the reverse-complement "AACC" of
`pe_p0`, yet the record is dropped; with copied subsequence "CA", which
occurs nowhere, the record is kept.  The source keeps a record when Python
`find` returns a truthy value (any nonzero, including -1 for absent). -/
theorem filter_pe_mismatch_truthiness_bug :
    get_coords pe_f0 = get_coords pe_p0 ∧
    str_find (reverse_complement pe_p0.seq) "AA" = 0 ∧
    filter_pe_mismatch [pe_f0] [pe_p0] (fun _ => some "AA") = some [] ∧
    str_find (reverse_complement pe_p0.seq) "CA" = -1 ∧
    filter_pe_mismatch [pe_f0] [pe_p0] (fun _ => some "CA") = some [pe_f0] := by
  decide

/-- C3: a record passes the quality filter iff every per-base Phred score is
at least the cutoff; at the default cutoff 20, the spec's scenario records
with scores [25,30,18,22] and [25,30,20,22] are dropped and kept
respectively. -/
theorem quality_filter_spec (q_cutoff : Nat) (seqs : List SeqRecord) (s : SeqRecord) :
    (s ∈ quality_filter seqs q_cutoff ↔ (s ∈ seqs ∧ ∀ q ∈ s.quality, q_cutoff ≤ q)) ∧
    quality_filter [lowQRec] 20 = [] ∧
    quality_filter [okQRec] 20 = [okQRec] := by
  refine ⟨?_, by decide, by decide⟩
  simp [quality_filter, List.mem_filter, Nat.not_lt]

/-- C4: a record passes the length filter iff its sequence length lies in
the inclusive range offset by the barcode length; with the defaults 40/200
and barcode length 3, a 45-base record is kept and a 42-base record is
dropped. -/
theorem len_filter_spec (l_cutoff u_cutoff l_barcode : Nat) (seqs : List SeqRecord)
    (s : SeqRecord) :
    (s ∈ len_filter seqs l_cutoff u_cutoff l_barcode ↔
      (s ∈ seqs ∧ l_cutoff + l_barcode ≤ s.seq.data.length ∧
        s.seq.data.length ≤ u_cutoff + l_barcode)) ∧
    len_filter [rec45] 40 200 3 = [rec45] ∧
    len_filter [rec42] 40 200 3 = [] := by
  refine ⟨?_, by decide, by decide⟩
  simp [len_filter, List.mem_filter, ge_iff_le, and_assoc]

/-- C2: a record lies in the demux bucket of a barcode-map entry iff it is
an input record and its sequence starts with that entry's exact barcode;
hence a record matching no barcode is in no bucket, and one whose sequence
starts with several barcodes is in each of those buckets. -/
theorem barcodeDemux_bucket_iff (seqs : List SeqRecord) (bcs : List (String × String))
    (e : String) (bucket : List SeqRecord)
    (h : (e, bucket) ∈ barcodeDemux seqs bcs) :
    ∃ bc, (e, bc) ∈ bcs ∧
      ∀ s, s ∈ bucket ↔ (s ∈ seqs ∧ py_startswith s.seq bc = true) := by
  simp only [barcodeDemux, List.mem_map] at h
  rcases h with ⟨⟨pe, pbc⟩, hp, hpe⟩
  rw [Prod.mk.injEq] at hpe
  obtain ⟨rfl, rfl⟩ := hpe
  exact ⟨pbc, hp, fun s => by simp [List.mem_filter]⟩

/-- Witness for C2, at the spec's scenario: barcodes AAA (expt1) and GGG
(expt2) over records AAATTTT, GGGCCCC, CCCAAAA; the expt1 bucket is exactly
the AAATTTT record. -/
theorem barcodeDemux_bucket_iff_witness :
    ∃ bc, ("expt1", bc) ∈ [("expt1", "AAA"), ("expt2", "GGG")] ∧
      ∀ s, s ∈ [recAAA] ↔ (s ∈ [recAAA, recGGG, recCCC] ∧ py_startswith s.seq bc = true) :=
  barcodeDemux_bucket_iff [recAAA, recGGG, recCCC] [("expt1", "AAA"), ("expt2", "GGG")]
    "expt1" [recAAA] (by decide)

/-- C5: every record emitted by the alignment-culling stage comes from an
alignment whose score is strictly between the cutoffs and whose template
row (row 0) has no gap characters; an alignment failing either test
contributes nothing. -/
theorem cull_alignments_only_if (aln : List Alignment) (lo hi : Int) (s : SeqRecord)
    (h : s ∈ cull_alignments aln lo hi) :
    ∃ a ∈ aln, lo < a.score ∧ a.score < hi ∧ a.row0.data.count '-' = 0 ∧
      s = { a.row1 with alnscore := some a.score } := by
  induction aln with
  | nil => simp [cull_alignments] at h
  | cons a rest ih =>
    simp only [cull_alignments] at h
    split at h
    · rename_i hsc
      split at h
      · rename_i hgap
        rcases List.mem_cons.mp h with hs | hs
        · exact ⟨a, List.mem_cons_self a rest, hsc.1, hsc.2,
            Nat.eq_zero_of_not_pos hgap, hs⟩
        · rcases ih hs with ⟨b, hb, hrest⟩
          exact ⟨b, List.mem_cons_of_mem a hb, hrest⟩
      · rcases ih h with ⟨b, hb, hrest⟩
        exact ⟨b, List.mem_cons_of_mem a hb, hrest⟩
    · rcases ih h with ⟨b, hb, hrest⟩
      exact ⟨b, List.mem_cons_of_mem a hb, hrest⟩

/-- Witness for C5: a gap-free alignment of score 500 against cutoffs
300/1000 yields its query row, stamped with the score. -/
theorem cull_alignments_only_if_witness :
    ∃ a ∈ [aln0], (300 : Int) < a.score ∧ a.score < 1000 ∧ a.row0.data.count '-' = 0 ∧
      ({ recAAA with alnscore := some 500 } : SeqRecord) =
        { a.row1 with alnscore := some a.score } :=
  cull_alignments_only_if [aln0] 300 1000 { recAAA with alnscore := some 500 } (by decide)

/-- C6: every filter stage emits at most as many records as it consumes —
the regex filter, each barcode-demux bucket, the paired-end match filter
(whose successful output is `getD` of the optional result), the quality
filter, the length filter, and the alignment filter stage itself, for any
oracle producing one pairwise alignment per input record (the report shape
the spec prescribes for needle).  Consequently, on a successful
per-experiment run the five record counts of the CSV audit row are
monotonically non-increasing in recorded order. -/
theorem filter_stage_counts_monotone (seqs f_seqs pe_seqs bucket : List SeqRecord)
    (expt : String) (q_re : String → Bool) (bcs : List (String × String))
    (copied_func : SeqRecord → Option String) (trim : SeqRecord → Option SeqRecord)
    (q_cutoff l_cutoff u_cutoff l_barcode bc_len : Nat)
    (aligner : List SeqRecord → List Alignment) (lo hi : Int)
    (out : List SeqRecord) (csv : List String)
    (haligner : ∀ l, (aligner l).length = l.length)
    (hrun : filter_sample_expt expt bucket pe_seqs copied_func trim aligner bc_len =
      some (out, csv)) :
    (filter_seqs seqs q_re).length ≤ seqs.length ∧
    ((barcodeDemux seqs bcs).all fun pl => decide (pl.2.length ≤ seqs.length)) = true ∧
    ((filter_pe_mismatch f_seqs pe_seqs copied_func).getD []).length ≤ f_seqs.length ∧
    (quality_filter seqs q_cutoff).length ≤ seqs.length ∧
    (len_filter seqs l_cutoff u_cutoff l_barcode).length ≤ seqs.length ∧
    (alignment_filter seqs aligner lo hi).length ≤ seqs.length ∧
    ∃ n1 n2 n3 n4 n5 : Nat,
      csv = [expt, toString n1, toString n2, toString n3, toString n4, toString n5] ∧
      n2 ≤ n1 ∧ n3 ≤ n2 ∧ n4 ≤ n3 ∧ n5 ≤ n4 := by
  refine ⟨List.length_filter_le _ _, ?_, ?_, List.length_filter_le _ _,
    List.length_filter_le _ _, ?_, ?_⟩
  · simp only [List.all_eq_true, barcodeDemux, List.mem_map, decide_eq_true_eq]
    rintro pl ⟨p, hp, rfl⟩
    simpa using List.length_filter_le _ seqs
  · cases hres : filter_pe_mismatch f_seqs pe_seqs copied_func with
    | none => simp
    | some l => simpa using (pe_loop_sublist _ _ _ f_seqs l hres).length_le
  · have hc := cull_alignments_length_le (aligner seqs) lo hi
    rw [haligner seqs] at hc
    exact hc
  · simp only [filter_sample_expt] at hrun
    split at hrun
    · exact Option.noConfusion hrun
    · rename_i seqs1 h1
      split at hrun
      · exact Option.noConfusion hrun
      · rename_i seqs2 h2
        simp only [Option.some.injEq, Prod.mk.injEq] at hrun
        obtain ⟨rfl, rfl⟩ := hrun
        refine ⟨bucket.length, seqs1.length, (post_quality seqs2).length,
          (post_alignment aligner (post_quality seqs2)).length,
          (post_length bc_len (post_alignment aligner (post_quality seqs2))).length,
          rfl, ?_, ?_, ?_, ?_⟩
        · exact (pe_loop_sublist _ _ _ bucket seqs1 h1).length_le
        · exact le_trans (post_quality_length_le seqs2)
            (le_of_eq (mapM_option_length trim seqs1 seqs2 h2))
        · exact post_alignment_length_le aligner haligner (post_quality seqs2)
        · exact post_length_length_le bc_len (post_alignment aligner (post_quality seqs2))

/-- Witness for C6, at a run that keeps one record through quality and
alignment and then drops it at the length stage: the recorded counts are
1, 1, 1, 1, 0. -/
theorem filter_stage_counts_monotone_witness :
    (filter_seqs [recAAA] (fun _ => true)).length ≤ [recAAA].length ∧
    ((barcodeDemux [recAAA] [("expt1", "AAA")]).all fun pl =>
      decide (pl.2.length ≤ [recAAA].length)) = true ∧
    ((filter_pe_mismatch [pe_f0] [pe_p0] (fun _ => some "CA")).getD []).length ≤
      [pe_f0].length ∧
    (quality_filter [recAAA] 20).length ≤ [recAAA].length ∧
    (len_filter [recAAA] 40 200 3).length ≤ [recAAA].length ∧
    (alignment_filter [recAAA] gap_aligner 300 1000).length ≤ [recAAA].length ∧
    ∃ n1 n2 n3 n4 n5 : Nat,
      (["e", "1", "1", "1", "1", "0"] : List String) =
        ["e", toString n1, toString n2, toString n3, toString n4, toString n5] ∧
      n2 ≤ n1 ∧ n3 ≤ n2 ∧ n4 ≤ n3 ∧ n5 ≤ n4 :=
  filter_stage_counts_monotone [recAAA] [pe_f0] [pe_p0] [pe_f0] "e" (fun _ => true)
    [("expt1", "AAA")] (fun _ => some "CA") (fun s => some s) 20 40 200 3 0 gap_aligner
    300 1000 [] ["e", "1", "1", "1", "1", "0"] (fun l => by simp [gap_aligner])
    (by decide)

/-- C9: each in-memory stage emits its survivors in input order: the output
of the regex filter, of every demux bucket, of the paired-end match filter,
of the quality filter and of the length filter is a sublist (order-
preserving selection) of the stage input. -/
theorem filter_stages_preserve_order (seqs f_seqs pe_seqs : List SeqRecord)
    (q_re : String → Bool) (bcs : List (String × String))
    (copied_func : SeqRecord → Option String)
    (q_cutoff l_cutoff u_cutoff l_barcode : Nat) :
    (filter_seqs seqs q_re).Sublist seqs ∧
    ((barcodeDemux seqs bcs).all fun pl => decide (pl.2.Sublist seqs)) = true ∧
    ((filter_pe_mismatch f_seqs pe_seqs copied_func).getD []).Sublist f_seqs ∧
    (quality_filter seqs q_cutoff).Sublist seqs ∧
    (len_filter seqs l_cutoff u_cutoff l_barcode).Sublist seqs := by
  refine ⟨List.filter_sublist _, ?_, ?_, List.filter_sublist _, List.filter_sublist _⟩
  · simp only [List.all_eq_true, barcodeDemux, List.mem_map, decide_eq_true_eq]
    rintro pl ⟨p, hp, rfl⟩
    exact List.filter_sublist _
  · cases hres : filter_pe_mismatch f_seqs pe_seqs copied_func with
    | none => simp
    | some l => simpa using pe_loop_sublist _ _ _ f_seqs l hres

/-- C7 counterexample: the CSV audit row has six fields, not five — a
post-length-filter count follows the post-alignment count.  At an
experiment with an empty demux bucket the row is
[ID, "0", "0", "0", "0", "0"]. -/
theorem csv_row_has_six_fields :
    filter_sample_expt "expt1" [] [] (fun _ => none) (fun s => some s) (fun _ => []) 0 =
      some ([], ["expt1", "0", "0", "0", "0", "0"]) ∧
    (["expt1", "0", "0", "0", "0", "0"] : List String).length ≠ 5 := by
  exact ⟨by decide, by decide⟩

/-- C7 amended: on a successful per-experiment run the CSV audit row is
exactly [experiment ID, count after barcode demux, count after paired-end
match, count after quality filtering, count after alignment filtering,
count after length filtering]: each field is the length of the actual
stage output (`seqs1` the paired-end survivors, `seqs2` their trims, then
the quality / alignment / length stages in order), so the row has six
fields and the post-length-filter count — the count of the records the
experiment finally keeps — follows the post-alignment count. -/
theorem csv_row_fields (expt : String) (bucket pe_seqs : List SeqRecord)
    (copied_func : SeqRecord → Option String) (trim : SeqRecord → Option SeqRecord)
    (aligner : List SeqRecord → List Alignment) (bc_len : Nat)
    (out : List SeqRecord) (csv : List String)
    (h : filter_sample_expt expt bucket pe_seqs copied_func trim aligner bc_len =
      some (out, csv)) :
    ∃ seqs1 seqs2 : List SeqRecord,
      filter_pe_mismatch bucket pe_seqs copied_func = some seqs1 ∧
      seqs1.mapM trim = some seqs2 ∧
      out = post_length bc_len (post_alignment aligner (post_quality seqs2)) ∧
      csv = [expt, toString bucket.length, toString seqs1.length,
        toString (post_quality seqs2).length,
        toString (post_alignment aligner (post_quality seqs2)).length,
        toString (post_length bc_len (post_alignment aligner (post_quality seqs2))).length] ∧
      csv.length = 6 := by
  simp only [filter_sample_expt] at h
  split at h
  · exact Option.noConfusion h
  · rename_i seqs1 h1
    split at h
    · exact Option.noConfusion h
    · rename_i seqs2 h2
      simp only [Option.some.injEq, Prod.mk.injEq] at h
      obtain ⟨rfl, rfl⟩ := h
      exact ⟨seqs1, seqs2, h1, h2, rfl, rfl, rfl⟩

/-- Witness for the amended C7 row shape, at an experiment whose demux
bucket is empty: every stage count is zero and the row still has its six
fields in stage order. -/
theorem csv_row_fields_witness :
    ∃ seqs1 seqs2 : List SeqRecord,
      filter_pe_mismatch [] [] (fun _ => none) = some seqs1 ∧
      seqs1.mapM (fun s => some s) = some seqs2 ∧
      ([] : List SeqRecord) =
        post_length 0 (post_alignment (fun _ => []) (post_quality seqs2)) ∧
      (["expt1", "0", "0", "0", "0", "0"] : List String) =
        ["expt1", toString (List.length ([] : List SeqRecord)), toString seqs1.length,
          toString (post_quality seqs2).length,
          toString (post_alignment (fun _ => []) (post_quality seqs2)).length,
          toString
            (post_length 0 (post_alignment (fun _ => []) (post_quality seqs2))).length] ∧
      (["expt1", "0", "0", "0", "0", "0"] : List String).length = 6 :=
  csv_row_fields "expt1" [] [] (fun _ => none) (fun s => some s) (fun _ => []) 0 []
    ["expt1", "0", "0", "0", "0", "0"] (by decide)

/-- C8 counterexample: the alignment filter is not idempotent.  With the
concrete alignment oracle `gap_aligner` — the aligned query row gains a gap
character, and a query already carrying a gap aligns at a low score — one
application keeps the transformed record and a second application removes
it. -/
theorem alignment_filter_not_idempotent :
    alignment_filter [c8rec] gap_aligner 300 1000 =
      [{ c8rec with seq := "ACG-", alnscore := some 500 }] ∧
    alignment_filter (alignment_filter [c8rec] gap_aligner 300 1000) gap_aligner 300 1000 =
      [] ∧
    alignment_filter (alignment_filter [c8rec] gap_aligner 300 1000) gap_aligner 300 1000 ≠
      alignment_filter [c8rec] gap_aligner 300 1000 := by
  decide

/-- C8 amended: each in-memory record-predicate stage is idempotent — the
regex filter, the demux of an experiment's own bucket, the paired-end match
filter (a successful run re-applied to its own output succeeds and changes
nothing), the quality filter and the length filter; the alignment filter is
excluded (see the counterexample: its output rows are transformed before
being re-aligned). -/
theorem pure_filter_stages_idempotent (seqs f_seqs pe_seqs : List SeqRecord)
    (q_re : String → Bool) (e bc : String)
    (copied_func : SeqRecord → Option String)
    (q_cutoff l_cutoff u_cutoff l_barcode : Nat) :
    filter_seqs (filter_seqs seqs q_re) q_re = filter_seqs seqs q_re ∧
    barcodeDemux (((barcodeDemux seqs [(e, bc)]).headD (e, [])).2) [(e, bc)] =
      barcodeDemux seqs [(e, bc)] ∧
    filter_pe_mismatch ((filter_pe_mismatch f_seqs pe_seqs copied_func).getD [])
      pe_seqs copied_func =
      some ((filter_pe_mismatch f_seqs pe_seqs copied_func).getD []) ∧
    quality_filter (quality_filter seqs q_cutoff) q_cutoff = quality_filter seqs q_cutoff ∧
    len_filter (len_filter seqs l_cutoff u_cutoff l_barcode) l_cutoff u_cutoff l_barcode =
      len_filter seqs l_cutoff u_cutoff l_barcode := by
  refine ⟨filter_twice _ _, ?_, ?_, filter_twice _ _, filter_twice _ _⟩
  · simp [barcodeDemux, List.headD, filter_twice]
  · cases hres : filter_pe_mismatch f_seqs pe_seqs copied_func with
    | none => simp [filter_pe_mismatch, pe_loop]
    | some l => simpa [filter_pe_mismatch] using pe_loop_idem _ _ _ f_seqs l hres

end Nextgen4b
